import Mathlib

/-!
Shallow embedding of the TikTok Live microservice event-distribution hub
(`main.py` and `tiktok_client.py`).

The hub's state lives in module-level globals of `main.py`:
  * `event_buffer : list`   — rolling replay buffer, capacity `MAX_BUFFER_SIZE = 50`;
  * `active_connections : set` — the registered WebSocket subscribers;
  * `tiktok_service`       — the upstream service object, `None` before startup.

Events are Python dicts with a `"type"` discriminator (`system` / `comment` /
`gift`); we embed them as an inductive.  WebSocket connections are opaque
handles used only for identity and for their `send_json` capability, so they
are embedded as natural-number identifiers plus an environment function
giving each send's outcome (`Except`, mirroring a Python call that either
returns or raises).
-/

/-- An event dict produced by `tiktok_client.py` (discriminated on `"type"`). -/
inductive Event where
  | system (message : String) (roomId : Option Nat)
  | comment (uniqueId nickname text : String) (timestamp : Nat)
  | gift (uniqueId nickname giftName : String) (giftId repeatCount cost : Nat)
      (streaking repeatEnd : Bool) (timestamp : Nat)
deriving DecidableEq, Repr

/-- `MAX_BUFFER_SIZE = 50` in `main.py`. -/
def MAX_BUFFER_SIZE : Nat := 50

/-- Lines 32–34 of `main.py`:
`event_buffer.append(data); if len(event_buffer) > MAX_BUFFER_SIZE: event_buffer.pop(0)`.
`pop(0)` removes the head, i.e. takes the tail. -/
def bufferAppend (buf : List Event) (e : Event) : List Event :=
  let buf' := buf ++ [e]
  if buf'.length > MAX_BUFFER_SIZE then buf'.tail else buf'

/-- Sample events used in concrete witnesses. -/
def evA : Event := .comment "a" "A" "hi" 0

def evB : Event := .comment "b" "B" "hey" 1

def evC : Event := .comment "c" "C" "yo" 2

def evD : Event := .gift "d" "D" "rose" 5655 1 1 false true 3

def evE : Event := .comment "e" "E" "sup" 4

lemma bufferAppend_eq_drop (buf : List Event) (e : Event) (h : buf.length ≤ MAX_BUFFER_SIZE) :
    bufferAppend buf e = (buf ++ [e]).drop (buf.length + 1 - MAX_BUFFER_SIZE) := by
  unfold bufferAppend
  simp only [List.length_append, List.length_cons, List.length_nil]
  by_cases h50 : buf.length + 1 > MAX_BUFFER_SIZE
  · have hlen : buf.length = MAX_BUFFER_SIZE := by omega
    have hd : buf.length + 1 - MAX_BUFFER_SIZE = 1 := by omega
    simp [h50, hd, List.drop_one]
  · have hd : buf.length + 1 - MAX_BUFFER_SIZE = 0 := by omega
    simp [h50, hd]

lemma bufferAppend_length_le (buf : List Event) (e : Event) (h : buf.length ≤ MAX_BUFFER_SIZE) :
    (bufferAppend buf e).length ≤ MAX_BUFFER_SIZE := by
  rw [bufferAppend_eq_drop buf e h]
  simp only [List.length_drop, List.length_append, List.length_cons, List.length_nil]
  omega

lemma foldl_bufferAppend_eq_drop (evs : List Event) :
    ∀ buf : List Event, buf.length ≤ MAX_BUFFER_SIZE →
      evs.foldl bufferAppend buf =
        (buf ++ evs).drop (buf.length + evs.length - MAX_BUFFER_SIZE) := by
  induction evs with
  | nil =>
    intro buf h
    simp only [List.foldl_nil, List.length_nil, Nat.add_zero, List.append_nil]
    have hd : buf.length - MAX_BUFFER_SIZE = 0 := by omega
    rw [hd, List.drop_zero]
  | cons e evs ih =>
    intro buf h
    have hle : buf.length + 1 - MAX_BUFFER_SIZE ≤ (buf ++ [e]).length := by
      simp only [List.length_append, List.length_cons, List.length_nil]
      omega
    rw [List.foldl_cons, ih (bufferAppend buf e) (bufferAppend_length_le buf e h),
      bufferAppend_eq_drop buf e h, List.length_drop,
      ← List.drop_append_of_le_length hle, List.drop_drop]
    have harr : buf.length + 1 - MAX_BUFFER_SIZE +
        ((buf ++ [e]).length - (buf.length + 1 - MAX_BUFFER_SIZE) + evs.length
          - MAX_BUFFER_SIZE) = buf.length + (e :: evs).length - MAX_BUFFER_SIZE := by
      simp only [List.length_append, List.length_cons, List.length_nil]
      omega
    rw [harr]
    simp [List.append_assoc]

/-- **C6** — The replay buffer never exceeds `MAX_BUFFER_SIZE = 50`: an append to a
buffer of length at most 50 yields a buffer of length at most 50, and an append to a
buffer exactly at capacity evicts the oldest (head) element, keeping the rest in order. -/
theorem buffer_capacity_invariant (buf : List Event) (e : Event)
    (h : buf.length ≤ MAX_BUFFER_SIZE) :
    (bufferAppend buf e).length ≤ MAX_BUFFER_SIZE ∧
      (buf.length = MAX_BUFFER_SIZE → bufferAppend buf e = buf.tail ++ [e]) := by
  refine ⟨bufferAppend_length_le buf e h, fun hfull => ?_⟩
  rw [bufferAppend_eq_drop buf e h, hfull]
  have hd : MAX_BUFFER_SIZE + 1 - MAX_BUFFER_SIZE = 1 := by omega
  rw [hd, List.drop_one]
  cases buf with
  | nil => simp [MAX_BUFFER_SIZE] at hfull
  | cons x xs => simp

/-- Witness for C6 at a concrete buffer of length 50. -/
theorem buffer_capacity_invariant_witness :
    (List.replicate 50 evA).length ≤ MAX_BUFFER_SIZE ∧
      ((bufferAppend (List.replicate 50 evA) evB).length ≤ MAX_BUFFER_SIZE ∧
        ((List.replicate 50 evA).length = MAX_BUFFER_SIZE →
          bufferAppend (List.replicate 50 evA) evB = (List.replicate 50 evA).tail ++ [evB])) :=
  ⟨by simp [MAX_BUFFER_SIZE],
   buffer_capacity_invariant (List.replicate 50 evA) evB (by simp [MAX_BUFFER_SIZE])⟩

/-- The `is_connected` flag of `TikTokService` (`tiktok_client.py`). -/
structure ServiceState where
  isConnected : Bool
deriving DecidableEq, Repr

/-- The module-level globals of `main.py`: `tiktok_service` (`None` before startup),
`active_connections` (a `set` of WebSockets, embedded as identifiers in iteration
order), and `event_buffer`. -/
structure SysState where
  tiktokService : Option ServiceState
  activeConnections : List Nat
  eventBuffer : List Event
deriving DecidableEq, Repr

/-- The transport layer's `send_json` capability: per connection and event it either
returns (`ok`) or raises (`error`), outside the hub's control. -/
abbrev SendFn := Nat → Event → Except String Unit

/-- Observable steps of the hub, in program order: a buffer append, or one send
attempt to connection `c` recording whether it succeeded. -/
inductive HubAction where
  | append (e : Event)
  | attempt (c : Nat) (e : Event) (ok : Bool)
deriving DecidableEq, Repr

/-- Whether `send c e` returns without raising. -/
def sendOk (send : SendFn) (e : Event) (c : Nat) : Bool :=
  match send c e with
  | .ok _ => true
  | .error _ => false

/-- Lines 37–42 of `main.py`: iterate over `active_connections`, `try: await
connection.send_json(data)` and on any exception add the connection to the local
`disconnected` set.  Returns the send attempts in order and the collected
`disconnected` list; the registry itself is not touched during the loop. -/
def fanOut (send : SendFn) (e : Event) : List Nat → List HubAction × List Nat
  | [] => ([], [])
  | c :: rest =>
    match send c e with
    | .ok _ =>
      let (acts, disc) := fanOut send e rest
      (HubAction.attempt c e true :: acts, disc)
    | .error _ =>
      let (acts, disc) := fanOut send e rest
      (HubAction.attempt c e false :: acts, c :: disc)

/-- Lines 30–45 of `main.py` (`broadcast_to_websockets`): append to the buffer,
fan out to every connection catching per-connection failures, then remove the
collected dead connections via `difference_update`.  The result is `Except`-valued
to record whether any exception escapes to the caller (`TikTokService._broadcast`). -/
def broadcastToWebsockets (send : SendFn) (s : SysState) (e : Event) :
    Except String (SysState × List HubAction) :=
  let buf := bufferAppend s.eventBuffer e
  let res := fanOut send e s.activeConnections
  Except.ok ({ s with
                 eventBuffer := buf,
                 activeConnections :=
                   s.activeConnections.filter (fun c => !(res.2.contains c)) },
    HubAction.append e :: res.1)

/-- Lines 183–189 of `main.py` (`get_recent_events`): the buffer and its length. -/
def recentEvents (s : SysState) : List Event × Nat :=
  (s.eventBuffer, s.eventBuffer.length)

/-- `active_connections.add(websocket)` (line 155): Python `set.add`, a no-op when
the element is already present. -/
def addConn (l : List Nat) (c : Nat) : List Nat :=
  if c ∈ l then l else l ++ [c]

/-- Lines 158–162 of `main.py`: replay the buffer to the new connection; a bare
`except: break` aborts the loop at the first failed send, with no other effect. -/
def replayLoop (send : SendFn) (w : Nat) : List Event → List HubAction
  | [] => []
  | e :: rest =>
    match send w e with
    | .ok _ => HubAction.attempt w e true :: replayLoop send w rest
    | .error _ => [HubAction.attempt w e false]

/-- Lines 152–162 of `main.py` (`websocket_endpoint` up to the keep-alive loop):
accept, add to `active_connections`, then replay the buffer. -/
def wsEndpointAttach (send : SendFn) (s : SysState) (w : Nat) : SysState × List HubAction :=
  let s' := { s with activeConnections := addConn s.activeConnections w }
  (s', replayLoop send w s'.eventBuffer)

/-- Line 169 of `main.py`: `active_connections.remove(websocket)` — Python
`set.remove`, which raises `KeyError` when the element is absent. -/
def removeConn (l : List Nat) (c : Nat) : Except String (List Nat) :=
  if c ∈ l then .ok (l.erase c) else .error "KeyError"

/-- The connections to which a send was attempted, in attempt order. -/
def attemptedConns (acts : List HubAction) : List Nat :=
  acts.filterMap fun a =>
    match a with
    | .attempt c _ _ => some c
    | .append _ => none

/-- The events successfully delivered to connection `w`, in delivery order. -/
def deliveredTo (w : Nat) (acts : List HubAction) : List Event :=
  acts.filterMap fun a =>
    match a with
    | .attempt c e ok => if c = w && ok then some e else none
    | .append _ => none

/-- A send function that always succeeds. -/
def allOk : SendFn := fun _ _ => .ok ()

/-- A send function that always raises. -/
def allFail : SendFn := fun _ _ => .error "ConnectionClosed"

lemma fanOut_acts (send : SendFn) (e : Event) (l : List Nat) :
    (fanOut send e l).1 = l.map fun c => HubAction.attempt c e (sendOk send e c) := by
  induction l with
  | nil => rfl
  | cons c rest ih =>
    unfold fanOut sendOk
    cases h : send c e <;> simp_all [sendOk]

lemma fanOut_disc (send : SendFn) (e : Event) (l : List Nat) :
    (fanOut send e l).2 = l.filter fun c => !(sendOk send e c) := by
  induction l with
  | nil => rfl
  | cons c rest ih =>
    unfold fanOut sendOk
    cases h : send c e <;> simp_all [sendOk]

lemma filter_not_disc (p : Nat → Bool) (l : List Nat) :
    (l.filter fun c => !((l.filter fun x => !(p x)).contains c)) = l.filter p := by
  apply List.filter_congr
  intro c hc
  cases hp : p c with
  | true =>
    have hmem : c ∉ l.filter fun x => !(p x) := by
      simp [List.mem_filter, hp]
    have hcon : (l.filter fun x => !(p x)).contains c = false := by
      rcases hb : (l.filter fun x => !(p x)).contains c with _ | _
      · rfl
      · exact absurd (List.elem_iff.mp hb) hmem
    simp [hcon]
    exact Or.inr hp
  | false =>
    have hmem : c ∈ l.filter fun x => !(p x) := by
      simp [List.mem_filter, hc, hp]
    have hcon : (l.filter fun x => !(p x)).contains c = true := List.elem_iff.mpr hmem
    simp [hcon]
    exact ⟨hc, hp⟩

lemma broadcast_spec (send : SendFn) (s : SysState) (e : Event) :
    broadcastToWebsockets send s e =
      Except.ok ({ s with
                     eventBuffer := bufferAppend s.eventBuffer e,
                     activeConnections := s.activeConnections.filter (sendOk send e) },
        HubAction.append e ::
          (s.activeConnections.map fun c => HubAction.attempt c e (sendOk send e c))) := by
  simp only [broadcastToWebsockets, fanOut_acts, fanOut_disc, filter_not_disc]

lemma attemptedConns_map (e : Event) (f : Nat → Bool) (l : List Nat) :
    attemptedConns (HubAction.append e ::
      (l.map fun c => HubAction.attempt c e (f c))) = l := by
  induction l with
  | nil => rfl
  | cons c rest ih => simpa [attemptedConns, List.filterMap_cons] using ih

/-- **C2** — One broadcast pass attempts the send for every registered subscriber (even
when some sends fail), never propagates an error to the upstream caller (the result is
always `Except.ok`), and unregisters exactly the failing subscribers only after the
whole pass, leaving precisely the successful ones. -/
theorem broadcast_failure_isolation (send : SendFn) (s : SysState) (e : Event) :
    ∃ s' acts, broadcastToWebsockets send s e = Except.ok (s', acts) ∧
      attemptedConns acts = s.activeConnections ∧
      s'.activeConnections = s.activeConnections.filter (sendOk send e) ∧
      s'.eventBuffer = bufferAppend s.eventBuffer e := by
  exact ⟨_, _, broadcast_spec send s e, attemptedConns_map e _ _, rfl, rfl⟩

lemma bufferAppend_getLast (buf : List Event) (e : Event) :
    (bufferAppend buf e).getLast? = some e := by
  unfold bufferAppend
  by_cases h : (buf ++ [e]).length > MAX_BUFFER_SIZE
  · simp only [h, if_true]
    cases buf with
    | nil => simp [MAX_BUFFER_SIZE] at h
    | cons x xs =>
      simp only [List.cons_append, List.tail_cons]
      exact List.getLast?_concat xs
  · simp only [h, if_false]
    exact List.getLast?_concat buf

lemma replayLoop_allOk (w : Nat) (buf : List Event) :
    replayLoop allOk w buf = buf.map fun e => HubAction.attempt w e true := by
  induction buf with
  | nil => rfl
  | cons e rest ih => simp [replayLoop, allOk, ih]

lemma deliveredTo_replay_self (w : Nat) (buf : List Event) :
    deliveredTo w (buf.map fun e => HubAction.attempt w e true) = buf := by
  induction buf with
  | nil => rfl
  | cons e rest ih => simpa [deliveredTo, List.filterMap_cons] using ih

/-- **C9** — Ingesting an event appends it to the replay buffer before any send is
attempted (the append is the first action of the pass) and unconditionally: for every
send behaviour and every registry (including the empty one and all-failing sends) the
new buffer is `bufferAppend` of the old, the event sits at the buffer's tail, and it is
visible to the recent-events query and replayed in full to a later attaching subscriber. -/
theorem ingest_append_first_unconditional (send : SendFn) (s : SysState) (e : Event) :
    ∃ s' acts, broadcastToWebsockets send s e = Except.ok (s', acts) ∧
      acts.head? = some (HubAction.append e) ∧
      s'.eventBuffer = bufferAppend s.eventBuffer e ∧
      (recentEvents s').1.getLast? = some e ∧
      e ∈ (recentEvents s').1 ∧
      ∀ w, deliveredTo w (wsEndpointAttach allOk s' w).2 = s'.eventBuffer := by
  refine ⟨_, _, broadcast_spec send s e, rfl, rfl, bufferAppend_getLast _ _,
    List.mem_of_mem_getLast? (bufferAppend_getLast _ _), ?_⟩
  intro w
  simp only [wsEndpointAttach, replayLoop_allOk, deliveredTo_replay_self]

/-- `TikTokService._broadcast` (lines 58–64 of `tiktok_client.py`) as wired at startup:
the one registered callback is `broadcast_to_websockets`, and its invocation sits in a
`try/except` that logs and continues, so a raising callback leaves the state as is. -/
def serviceBroadcast (send : SendFn) (s : SysState) (e : Event) : SysState × List HubAction :=
  match broadcastToWebsockets send s e with
  | .ok out => out
  | .error _ => (s, [])

/-- The two entry points that mutate hub state, in the order the event loop runs them. -/
inductive Op where
  | opAttach (w : Nat)
  | opIngest (e : Event)
deriving DecidableEq, Repr

/-- Run a sequence of operations, concatenating the observable actions. -/
def runOps (send : SendFn) : SysState → List Op → SysState × List HubAction
  | s, [] => (s, [])
  | s, op :: rest =>
    let step :=
      match op with
      | .opAttach w => wsEndpointAttach send s w
      | .opIngest e => serviceBroadcast send s e
    let next := runOps send step.1 rest
    (next.1, step.2 ++ next.2)

lemma serviceBroadcast_spec (send : SendFn) (s : SysState) (e : Event) :
    serviceBroadcast send s e =
      ({ s with
           eventBuffer := bufferAppend s.eventBuffer e,
           activeConnections := s.activeConnections.filter (sendOk send e) },
       HubAction.append e ::
         (s.activeConnections.map fun c => HubAction.attempt c e (sendOk send e c))) := by
  unfold serviceBroadcast
  rw [broadcast_spec]

lemma runOps_ingest_buffer (send : SendFn) (evs : List Event) :
    ∀ s : SysState,
      (runOps send s (evs.map Op.opIngest)).1.eventBuffer = evs.foldl bufferAppend s.eventBuffer := by
  induction evs with
  | nil => intro s; rfl
  | cons e evs ih =>
    intro s
    simp only [List.map_cons, runOps, serviceBroadcast_spec, List.foldl_cons]
    exact ih _

/-- **C1** — Starting from the empty buffer, after ingesting `evs` with
`evs.length > MAX_BUFFER_SIZE = 50`, the recent-events query returns exactly the last
50 ingested events, in ingestion order, with count 50 — for any registry contents and
any send behaviour. -/
theorem recent_events_last_capacity (send : SendFn) (conns : List Nat) (evs : List Event)
    (h : MAX_BUFFER_SIZE < evs.length) :
    (recentEvents (runOps send ⟨none, conns, []⟩ (evs.map Op.opIngest)).1).1
        = evs.drop (evs.length - MAX_BUFFER_SIZE) ∧
      (recentEvents (runOps send ⟨none, conns, []⟩ (evs.map Op.opIngest)).1).2
        = MAX_BUFFER_SIZE := by
  unfold recentEvents
  rw [runOps_ingest_buffer, foldl_bufferAppend_eq_drop evs [] (by simp [MAX_BUFFER_SIZE])]
  simp only [List.nil_append, List.length_nil, Nat.zero_add, List.length_drop]
  exact ⟨trivial, by omega⟩

/-- Witness for C1: 51 ingests leave the last 50 events. -/
theorem recent_events_last_capacity_witness :
    MAX_BUFFER_SIZE < (List.replicate 51 evA).length ∧
      ((recentEvents (runOps allOk ⟨none, [], []⟩
            ((List.replicate 51 evA).map Op.opIngest)).1).1
          = (List.replicate 51 evA).drop ((List.replicate 51 evA).length - MAX_BUFFER_SIZE) ∧
        (recentEvents (runOps allOk ⟨none, [], []⟩
            ((List.replicate 51 evA).map Op.opIngest)).1).2 = MAX_BUFFER_SIZE) :=
  ⟨by simp [MAX_BUFFER_SIZE],
   recent_events_last_capacity allOk [] (List.replicate 51 evA) (by simp [MAX_BUFFER_SIZE])⟩

lemma deliveredTo_append (w : Nat) (a b : List HubAction) :
    deliveredTo w (a ++ b) = deliveredTo w a ++ deliveredTo w b := by
  simp [deliveredTo]

lemma deliveredTo_cons_append (w : Nat) (e : Event) (acts : List HubAction) :
    deliveredTo w (HubAction.append e :: acts) = deliveredTo w acts := by
  simp [deliveredTo, List.filterMap_cons]

lemma sendOk_allOk (e : Event) (c : Nat) : sendOk allOk e c = true := rfl

lemma deliveredTo_attempts_of_not_mem (w : Nat) (e : Event) (l : List Nat) (hw : w ∉ l) :
    deliveredTo w (l.map fun c => HubAction.attempt c e true) = [] := by
  induction l with
  | nil => rfl
  | cons c rest ih =>
    have hcw : ¬ (c = w) := by
      rintro rfl
      exact hw (List.mem_cons_self c rest)
    have hrest : w ∉ rest := fun hm => hw (List.mem_cons_of_mem c hm)
    simp only [List.map_cons, deliveredTo, List.filterMap_cons] at ih ⊢
    rw [if_neg (by simp [hcw])]
    exact ih hrest

/-- **C5** — With all sends succeeding, a fresh subscriber attaching over buffer `bs`
receives exactly `bs` in chronological order — each buffered event once, none skipped —
followed by (hence before) an event ingested after its attachment. -/
theorem attach_replays_buffer_in_order (s : SysState) (w : Nat) (e : Event)
    (hw : w ∉ s.activeConnections) :
    deliveredTo w (runOps allOk s [Op.opAttach w, Op.opIngest e]).2
      = s.eventBuffer ++ [e] := by
  have haddw : addConn s.activeConnections w = s.activeConnections ++ [w] := by
    simp [addConn, hw]
  simp only [runOps, wsEndpointAttach, serviceBroadcast_spec]
  rw [List.append_nil, deliveredTo_append, replayLoop_allOk, deliveredTo_replay_self]
  congr 1
  rw [deliveredTo_cons_append, haddw]
  have hmap : ∀ l : List Nat,
      (l.map fun c => HubAction.attempt c e (sendOk allOk e c))
        = l.map fun c => HubAction.attempt c e true := by
    intro l
    simp [sendOk_allOk]
  rw [hmap, List.map_append, deliveredTo_append, deliveredTo_attempts_of_not_mem w e _ hw]
  simp [deliveredTo]

/-- Witness for C5 at buffer `[B, C, D]` and a later event `E`. -/
theorem attach_replays_buffer_in_order_witness :
    (0 : Nat) ∉ ([] : List Nat) ∧
      deliveredTo 0 (runOps allOk ⟨none, [], [evB, evC, evD]⟩
          [Op.opAttach 0, Op.opIngest evE]).2
        = [evB, evC, evD] ++ [evE] :=
  ⟨by simp, attach_replays_buffer_in_order ⟨none, [], [evB, evC, evD]⟩ 0 evE (by simp)⟩

deriving instance DecidableEq for Except

lemma mem_addConn_self (l : List Nat) (w : Nat) : w ∈ addConn l w := by
  unfold addConn
  by_cases hw : w ∈ l
  · simp [hw]
  · simp [hw]

/-- Counterexample to C3 as stated: with a one-event buffer and a send that always
raises, the attaching subscriber is still registered after the failed replay, and the
next ingested event's fan-out still attempts a send to it — it was not removed. -/
theorem attach_replay_failure_leaves_registered :
    (0 : Nat) ∈ (wsEndpointAttach allFail ⟨none, [], [evA]⟩ 0).1.activeConnections ∧
      attemptedConns
          (serviceBroadcast allFail (wsEndpointAttach allFail ⟨none, [], [evA]⟩ 0).1 evB).2
        = [0] := by
  decide

lemma replayLoop_prefix_abort (send : SendFn) (w : Nat) (bad : Event) (post : List Event) :
    ∀ pre : List Event, pre.all (fun e => sendOk send e w) = true →
      sendOk send bad w = false →
      replayLoop send w (pre ++ bad :: post)
        = (pre.map fun e => HubAction.attempt w e true) ++ [HubAction.attempt w bad false] := by
  intro pre
  induction pre with
  | nil =>
    intro _ hbad
    simp only [List.nil_append, List.map_nil, replayLoop]
    cases hsend : send w bad with
    | ok u =>
      have hbs : sendOk send bad w = true := by
        unfold sendOk
        rw [hsend]
      rw [hbs] at hbad
      cases hbad
    | error msg => rfl
  | cons p pre ih =>
    intro hpre hbad
    rw [List.all_cons, Bool.and_eq_true] at hpre
    obtain ⟨hp, hrest⟩ := hpre
    simp only [List.cons_append, replayLoop, List.map_cons]
    cases hsend : send w p with
    | ok u =>
      show HubAction.attempt w p true :: replayLoop send w (pre ++ bad :: post)
        = HubAction.attempt w p true ::
          (List.map (fun e => HubAction.attempt w e true) pre ++ [HubAction.attempt w bad false])
      rw [ih hrest hbad]
    | error msg =>
      have hps : sendOk send p w = false := by
        unfold sendOk
        rw [hsend]
      rw [hps] at hp
      cases hp

/-- **C3 (amended)** — If a send fails at any point while the buffered events are
replayed to a newly attached subscriber, the replay is aborted: the successfully sent
prefix plus that one failed attempt is the whole replay and no later buffered event is
pushed.  But the subscriber stays in the registry; it is removed only later, e.g. by
the fan-out cleanup of the next ingest whose send to it fails. -/
theorem attach_replay_failure_aborts_removal_deferred (s : SysState) (w : Nat)
    (send : SendFn) (bad e' : Event) (pre post : List Event)
    (hbuf : s.eventBuffer = pre ++ bad :: post)
    (hpre : pre.all (fun e => sendOk send e w) = true)
    (hbad : sendOk send bad w = false)
    (hfail : sendOk send e' w = false) :
    (wsEndpointAttach send s w).2
        = (pre.map fun e => HubAction.attempt w e true) ++ [HubAction.attempt w bad false] ∧
      w ∈ (wsEndpointAttach send s w).1.activeConnections ∧
      w ∉ (serviceBroadcast send (wsEndpointAttach send s w).1 e').1.activeConnections := by
  refine ⟨?_, mem_addConn_self _ _, ?_⟩
  · simp only [wsEndpointAttach, hbuf]
    exact replayLoop_prefix_abort send w bad post pre hpre hbad
  · rw [serviceBroadcast_spec]
    intro hmem
    have hmem' := (List.mem_filter.mp hmem).2
    rw [hfail] at hmem'
    cases hmem'

/-- A send that raises exactly on event `evB` and succeeds on everything else. -/
def sendFailB : SendFn := fun _ e => if e = evB then .error "ConnectionClosed" else .ok ()

/-- Witness for the amended C3: buffer `[A, B, D]`, the send succeeds on `A` and fails
on `B`, so the replay delivers `A`, aborts at `B`, never touches `D`, and the
subscriber stays registered until the next failing fan-out. -/
theorem attach_replay_failure_aborts_removal_deferred_witness :
    ((⟨none, [], [evA, evB, evD]⟩ : SysState).eventBuffer = [evA] ++ evB :: [evD] ∧
        [evA].all (fun e => sendOk sendFailB e 0) = true ∧
        sendOk sendFailB evB 0 = false) ∧
      ((wsEndpointAttach sendFailB ⟨none, [], [evA, evB, evD]⟩ 0).2
          = ([evA].map fun e => HubAction.attempt 0 e true) ++ [HubAction.attempt 0 evB false] ∧
        (0 : Nat) ∈ (wsEndpointAttach sendFailB ⟨none, [], [evA, evB, evD]⟩ 0).1.activeConnections ∧
        (0 : Nat) ∉ (serviceBroadcast sendFailB
            (wsEndpointAttach sendFailB ⟨none, [], [evA, evB, evD]⟩ 0).1 evB).1.activeConnections) :=
  ⟨⟨rfl, by decide, by decide⟩,
   attach_replay_failure_aborts_removal_deferred ⟨none, [], [evA, evB, evD]⟩ 0 sendFailB evB evB
     [evA] [evD] rfl (by decide) (by decide) (by decide)⟩

/-- **C4** — the code, evaluated at the failing input: detaching a registered
connection succeeds, but detaching one that is absent — in particular one already
removed by the fan-out cleanup of a failed broadcast send — raises `KeyError`
(`set.remove`), contradicting the claim that detach is idempotent and never fails. -/
theorem detach_remove_raises_when_absent :
    removeConn [0] 0 = Except.ok [] ∧
      removeConn [] 0 = Except.error "KeyError" ∧
      (serviceBroadcast allFail ⟨none, [0], []⟩ evA).1.activeConnections = [] ∧
      removeConn (serviceBroadcast allFail ⟨none, [0], []⟩ evA).1.activeConnections 0
        = Except.error "KeyError" := by
  decide

/-- `TikTokService.register_callback` (lines 66–68 of `tiktok_client.py`):
`self.callbacks.append(callback)` — an unconditional Python `list.append`. -/
def register_callback (callbacks : List Nat) (cb : Nat) : List Nat :=
  callbacks ++ [cb]

/-- The invocation list of `TikTokService._broadcast` (lines 58–64): every entry of
`self.callbacks` is invoked once with the event, in list order. -/
def broadcastInvocations (callbacks : List Nat) (e : Event) : List (Nat × Event) :=
  callbacks.map fun cb => (cb, e)

lemma invocations_count (cbs : List Nat) (cb : Nat) (e : Event) :
    (broadcastInvocations cbs e).count (cb, e) = cbs.count cb := by
  induction cbs with
  | nil => rfl
  | cons c rest ih =>
    simp only [broadcastInvocations, List.map_cons, List.count_cons, Prod.mk.injEq] at ih ⊢
    rw [ih]
    by_cases hc : c = cb
    · simp [hc]
    · simp [hc]

/-- Counterexample to C8 as stated: registering the same callback twice does change the
registry (the list grows), and the callback is then invoked twice per event, not once. -/
theorem register_callback_twice_invokes_twice :
    register_callback (register_callback [] 0) 0 ≠ register_callback [] 0 ∧
      (broadcastInvocations (register_callback (register_callback [] 0) 0) evA).count (0, evA)
        = 2 := by
  decide

/-- **C8 (amended)** — WebSocket subscriber registration (`set.add`, line 155) is
idempotent by identity: adding a present subscriber leaves the registry unchanged and
adding an absent one makes it present exactly once.  Callback registration
(`list.append`, line 68) is not: registering the same callback twice makes `_broadcast`
invoke it twice per event. -/
theorem subscriber_add_idempotent_callback_add_not (l : List Nat) (w : Nat)
    (cbs : List Nat) (cb : Nat) (e : Event) :
    (w ∈ l → addConn l w = l) ∧
      (w ∉ l → (addConn l w).count w = 1) ∧
      (broadcastInvocations (register_callback (register_callback cbs cb) cb) e).count (cb, e)
        = cbs.count cb + 2 := by
  refine ⟨fun hw => by simp [addConn, hw], fun hw => ?_, ?_⟩
  · simp only [addConn, hw, if_false, List.count_append]
    rw [List.count_eq_zero.mpr hw]
    simp
  · rw [invocations_count]
    simp only [register_callback, List.append_assoc, List.count_append]
    simp [List.count_cons]

/-- Witness for the amended C8 at concrete registries. -/
theorem subscriber_add_idempotent_callback_add_not_witness :
    (addConn [0] 0 = [0]) ∧ ((addConn [] 1).count 1 = 1) ∧
      ((broadcastInvocations (register_callback (register_callback [] 2) 2) evA).count (2, evA)
        = List.count 2 [] + 2) :=
  ⟨(subscriber_add_idempotent_callback_add_not [0] 0 [] 2 evA).1 (by decide),
   (subscriber_add_idempotent_callback_add_not [] 1 [] 2 evA).2.1 (by decide),
   (subscriber_add_idempotent_callback_add_not [] 1 [] 2 evA).2.2⟩

/-- The system event dict built by the `ConnectEvent` handler (lines 14–21 of
`tiktok_client.py`): `{"type": "system", "message": "Conectado al live", "room_id": …}`. -/
def connectEvent (roomId : Nat) : Event := .system "Conectado al live" (some roomId)

/-- The system event dict built by the `DisconnectEvent` handler (lines 23–29):
`{"type": "system", "message": "Desconectado del live"}`. -/
def disconnectEvent : Event := .system "Desconectado del live" none

/-- `on_connect` handler: set `self.is_connected = True`, then `_broadcast` the
connect system event through the registered callback. -/
def onConnect (send : SendFn) (s : SysState) (roomId : Nat) : SysState × List HubAction :=
  let s₁ := { s with tiktokService := s.tiktokService.map fun _ => ⟨true⟩ }
  serviceBroadcast send s₁ (connectEvent roomId)

/-- `on_disconnect` handler: set `self.is_connected = False`, then `_broadcast` the
disconnect system event. -/
def onDisconnect (send : SendFn) (s : SysState) : SysState × List HubAction :=
  let s₁ := { s with tiktokService := s.tiktokService.map fun _ => ⟨false⟩ }
  serviceBroadcast send s₁ disconnectEvent

/-- The `"message"` field of an event, when present. -/
def eventMessage : Event → Option String
  | .system msg _ => some msg
  | .comment _ _ _ _ => none
  | .gift _ _ _ _ _ _ _ _ _ => none

/-- The events appended to the buffer during a pass, in order. -/
def appendedEvents (acts : List HubAction) : List Event :=
  acts.filterMap fun a =>
    match a with
    | .append e => some e
    | .attempt _ _ _ => none

/-- Counterexample to C7 as stated: the system event ingested on upstream connect has
message "Conectado al live", not "connected". -/
theorem connect_event_message_not_connected :
    appendedEvents (onConnect allOk ⟨some ⟨false⟩, [], []⟩ 7).2 = [connectEvent 7] ∧
      eventMessage (connectEvent 7) ≠ some "connected" := by
  decide

lemma appendedEvents_broadcast (e : Event) (g : Nat → Bool) (l : List Nat) :
    appendedEvents (HubAction.append e :: (l.map fun c => HubAction.attempt c e (g c)))
      = [e] := by
  simp only [appendedEvents, List.filterMap_cons]
  induction l with
  | nil => rfl
  | cons c rest ih =>
    simp only [List.map_cons, List.filterMap_cons]
    exact ih

lemma mem_deliveredTo_attempts (c : Nat) (e : Event) (l : List Nat) (hc : c ∈ l) :
    e ∈ deliveredTo c (l.map fun x => HubAction.attempt x e true) := by
  induction l with
  | nil => cases hc
  | cons x rest ih =>
    simp only [List.map_cons, deliveredTo, List.filterMap_cons]
    by_cases hxc : x = c
    · rw [if_pos (by simp [hxc])]
      exact List.mem_cons_self e _
    · rw [if_neg (by simp [hxc])]
      have hrest : c ∈ rest := by
        rcases List.mem_cons.mp hc with h | h
        · exact absurd h.symm hxc
        · exact h
      exact ih hrest

/-- **C7 (amended)** — On an upstream connect signal the service's `is_connected` flag
becomes `true` and a synthetic system event with message "Conectado al live" (carrying
the room id) is ingested into the buffer, with a send of it attempted to every current
subscriber (and delivered when sends succeed); on an upstream disconnect signal the
flag becomes `false` and the system event with message "Desconectado del live" is
likewise ingested and fanned out. -/
theorem upstream_lifecycle_events (send : SendFn) (s : SysState) (svc : ServiceState)
    (roomId c : Nat) (hsvc : s.tiktokService = some svc) (hc : c ∈ s.activeConnections) :
    (onConnect send s roomId).1.tiktokService = some ⟨true⟩ ∧
      appendedEvents (onConnect send s roomId).2 = [connectEvent roomId] ∧
      attemptedConns (onConnect send s roomId).2 = s.activeConnections ∧
      connectEvent roomId ∈ deliveredTo c (onConnect allOk s roomId).2 ∧
      (onDisconnect send s).1.tiktokService = some ⟨false⟩ ∧
      appendedEvents (onDisconnect send s).2 = [disconnectEvent] ∧
      attemptedConns (onDisconnect send s).2 = s.activeConnections ∧
      disconnectEvent ∈ deliveredTo c (onDisconnect allOk s).2 := by
  have hmap : ∀ (e : Event) (l : List Nat),
      (l.map fun x => HubAction.attempt x e (sendOk allOk e x))
        = l.map fun x => HubAction.attempt x e true := by
    intro e l
    simp [sendOk_allOk]
  refine ⟨?_, ?_, ?_, ?_, ?_, ?_, ?_, ?_⟩
  · simp [onConnect, serviceBroadcast_spec, hsvc]
  · simp only [onConnect, serviceBroadcast_spec]
    exact appendedEvents_broadcast _ _ _
  · simp only [onConnect, serviceBroadcast_spec]
    exact attemptedConns_map _ _ _
  · simp only [onConnect, serviceBroadcast_spec, deliveredTo_cons_append, hmap]
    exact mem_deliveredTo_attempts c _ _ hc
  · simp [onDisconnect, serviceBroadcast_spec, hsvc]
  · simp only [onDisconnect, serviceBroadcast_spec]
    exact appendedEvents_broadcast _ _ _
  · simp only [onDisconnect, serviceBroadcast_spec]
    exact attemptedConns_map _ _ _
  · simp only [onDisconnect, serviceBroadcast_spec, deliveredTo_cons_append, hmap]
    exact mem_deliveredTo_attempts c _ _ hc

/-- Witness for the amended C7 at a concrete state with one subscriber. -/
theorem upstream_lifecycle_events_witness :
    ((⟨some ⟨false⟩, [3], []⟩ : SysState).tiktokService = some ⟨false⟩ ∧
        (3 : Nat) ∈ (⟨some ⟨false⟩, [3], []⟩ : SysState).activeConnections) ∧
      ((onConnect allOk ⟨some ⟨false⟩, [3], []⟩ 7).1.tiktokService = some ⟨true⟩ ∧
        appendedEvents (onConnect allOk ⟨some ⟨false⟩, [3], []⟩ 7).2 = [connectEvent 7] ∧
        attemptedConns (onConnect allOk ⟨some ⟨false⟩, [3], []⟩ 7).2 = [3] ∧
        connectEvent 7 ∈ deliveredTo 3 (onConnect allOk ⟨some ⟨false⟩, [3], []⟩ 7).2 ∧
        (onDisconnect allOk ⟨some ⟨false⟩, [3], []⟩).1.tiktokService = some ⟨false⟩ ∧
        appendedEvents (onDisconnect allOk ⟨some ⟨false⟩, [3], []⟩).2 = [disconnectEvent] ∧
        attemptedConns (onDisconnect allOk ⟨some ⟨false⟩, [3], []⟩).2 = [3] ∧
        disconnectEvent ∈ deliveredTo 3 (onDisconnect allOk ⟨some ⟨false⟩, [3], []⟩).2) :=
  ⟨⟨rfl, by simp⟩,
   upstream_lifecycle_events allOk ⟨some ⟨false⟩, [3], []⟩ ⟨false⟩ 7 3 rfl (by simp)⟩

/-- The response record of `get_status` (lines 172–180 of `main.py`). -/
structure Status where
  connected : Bool
  username : String
  activeWebsockets : Nat
  bufferedEvents : Nat
deriving DecidableEq, Repr

/-- Lines 172–180 of `main.py` (`get_status`): a read-only endpoint returning
`tiktok_service.is_connected if tiktok_service else False`, the configured username,
and the sizes of the registry and the buffer.  It performs no mutation, which the
embedding records by returning the state unchanged alongside the response. -/
def get_status (username : String) (s : SysState) : SysState × Status :=
  (s,
   { connected :=
       match s.tiktokService with
       | some svc => svc.isConnected
       | none => false,
     username := username,
     activeWebsockets := s.activeConnections.length,
     bufferedEvents := s.eventBuffer.length })

/-- **C10** — The status query is total and side-effect free: for every hub state it
returns without failing and leaves the state (buffer, registry, service flag)
unchanged, and when the service object is still `None` (before startup) it reports
`connected = false`. -/
theorem status_total_pure (u : String) (s : SysState) :
    (get_status u s).1 = s ∧
      (s.tiktokService = none → (get_status u s).2.connected = false) ∧
      (get_status u s).2.activeWebsockets = s.activeConnections.length ∧
      (get_status u s).2.bufferedEvents = s.eventBuffer.length := by
  refine ⟨rfl, fun h => ?_, rfl, rfl⟩
  simp [get_status, h]

/-- Witness for C10 at the pre-startup state. -/
theorem status_total_pure_witness :
    (get_status "user" ⟨none, [], []⟩).1 = (⟨none, [], []⟩ : SysState) ∧
      (get_status "user" ⟨none, [], []⟩).2.connected = false :=
  ⟨(status_total_pure "user" ⟨none, [], []⟩).1,
   (status_total_pure "user" ⟨none, [], []⟩).2.1 rfl⟩
